import Mathlib

/-!
# Schema migration engine of everest-sqlite

A shallow embedding of `lib/database/sqlite/schema_updater.cpp` and of the
transaction handle of `lib/database/sqlite/connection.cpp`, followed by the
properties established about them.

Conventions of the embedding:

* `uint32_t` values are natural numbers; every arithmetic step that the C++
  code performs in 32-bit unsigned arithmetic is reduced with `u32`.
* `std::vector` is `List`; a function that mutates a vector passed by
  reference returns the vector after the call.
* `std::sort` is modelled by `std_sort`, an insertion sort driven by the same
  strict comparator that the C++ code passes.  The C++ standard leaves the
  relative order of equivalent elements open; no property below depends on it.
-/

namespace everest.db.sqlite

/-! ## Data model -/

/-- Migration direction, `enum class Direction`. -/
inductive Direction where
  | Up
  | Down
  deriving DecidableEq, Repr

/-- Underlying value of the enumerator, used by `std::tie` comparisons. -/
def Direction.toNat : Direction → Nat
  | .Up => 0
  | .Down => 1

/-- The `struct MigrationFile`: path of the file, version and direction. -/
structure MigrationFile where
  path : String
  version : Nat
  direction : Direction
  deriving DecidableEq, Repr

/-- Reduction of a natural number to the range of `uint32_t`. -/
def u32 (n : Nat) : Nat := n % 4294967296

/-- Identity of a descriptor: its version and direction. -/
def MigrationFile.identity (f : MigrationFile) : Nat × Direction := (f.version, f.direction)

/-! ## Sorting -/

/-- Insertion of `x` into a list ordered by the strict comparator `comp`. -/
def sort_insert {α : Type} (comp : α → α → Bool) (x : α) : List α → List α
  | [] => [x]
  | y :: ys => if comp x y then x :: y :: ys else y :: sort_insert comp x ys

/-- Model of `std::sort(first, last, comp)`. -/
def std_sort {α : Type} (comp : α → α → Bool) : List α → List α
  | [] => []
  | x :: xs => sort_insert comp x (std_sort comp xs)

/-! ## The validator and the sequencer -/

/-- The comparator of the validator:
`std::tie(a.version, a.direction) < std::tie(b.version, b.direction)`. -/
def tie_less (a b : MigrationFile) : Bool :=
  decide (a.version < b.version) ||
    (!decide (b.version < a.version) && decide (a.direction.toNat < b.direction.toNat))

/-- The loop `for (size_t i = 1; i < list.size(); i += 2)` of the validator.
The second argument is the part of the sorted vector from index `i` on, so its
first two elements are `list.at(i)` and `list.at(i + 1)`.  A single remaining
element is the case in which `list.at(i + 1)` would be out of range; the
validator only enters the loop with an odd number of elements, where this does
not occur. -/
def validation_loop : Nat → List MigrationFile → Bool
  | _, [] => true
  | _, [_] => false
  | i, up :: down :: rest =>
    let expected_version := u32 (i / 2 + 2)
    if up.version != expected_version || up.direction != Direction.Up then false
    else if down.version != expected_version || down.direction != Direction.Down then false
    else validation_loop (i + 2) rest

/-- The function `is_migration_file_list_valid(list, max_version)`.  The first
component is the returned value, the second the vector after the call (the
function sorts it in place once the two size checks have passed). -/
def is_migration_file_list_valid (list : List MigrationFile) (max_version : Nat) :
    Bool × List MigrationFile :=
  let expected_files := u32 (u32 (max_version * 2) + 4294967295)
  if list.length < expected_files then (false, list)
  else if list.length % 2 == 0 then (false, list)
  else
    let sorted := std_sort tie_less list
    match sorted with
    | [] => (false, sorted)
    | first :: rest =>
      if first.version != 1 || first.direction != Direction.Up then (false, sorted)
      else (validation_loop 1 rest, sorted)

/-- The comparator of `filter_and_sort_migration_file_list`. -/
def direction_less (direction : Direction) (a b : MigrationFile) : Bool :=
  if direction = Direction.Up then decide (a.version < b.version)
  else decide (b.version < a.version)

/-- The function `filter_and_sort_migration_file_list`: the erase-remove step
drops every element for which the lambda `filter` holds, then the rest is
sorted by version, ascending for `Up` and descending for `Down`. -/
def filter_and_sort_migration_file_list (list : List MigrationFile) (direction : Direction)
    (min_version max_version : Nat) : List MigrationFile :=
  let filter := fun (item : MigrationFile) =>
    item.direction != direction || decide (item.version < min_version) ||
      decide (item.version > max_version)
  std_sort (direction_less direction) (list.filter (fun item => !filter item))

/-- Validation and sequencing part of `get_migration_file_sequence`, applied to
the vector that the directory scan produced. -/
def sequence_of_file_list (list : List MigrationFile) (direction : Direction)
    (current_version target_version : Nat) : Option (List MigrationFile) :=
  let checked := is_migration_file_list_valid list (max current_version target_version)
  if !checked.1 then none
  else
    let lowest := u32 (min current_version target_version + 1)
    let highest := max current_version target_version
    some (filter_and_sort_migration_file_list checked.2 direction lowest highest)

/-- The direction chosen by `SchemaUpdater::apply_migration_files`. -/
def run_direction (current_version target_schema_version : Nat) : Direction :=
  if current_version > target_schema_version then Direction.Down else Direction.Up

/-- Identities of a complete file set for the versions `1 .. max_version`: the
initial `Up`, then an `Up` and a `Down` for every later version. -/
def complete_identities (max_version : Nat) : List (Nat × Direction) :=
  (1, Direction.Up) ::
    (List.range' 2 (max_version - 1)).flatMap (fun v => [(v, Direction.Up), (v, Direction.Down)])

/-! ## The scanner -/

/-- Exceptions that the embedded code throws.  `filesystem_error` is
`std::filesystem::filesystem_error`, which derives from `std::runtime_error`.
The handler `catch (std::runtime_error&)` of the runner catches
`runtime_error` and `filesystem_error`; the handler `catch (std::exception&)`
catches all four. -/
inductive Exception where
  | out_of_range
  | runtime_error
  | QueryExecutionException
  | filesystem_error
  deriving DecidableEq, Repr

/-- The class `\d` of the pattern: the decimal digits. -/
def is_digit (c : Char) : Bool := decide (48 ≤ c.toNat) && decide (c.toNat ≤ 57)

/-- White space in the sense of `\s`: space, tab, line feed, vertical tab, form
feed and carriage return. -/
def is_space (c : Char) : Bool :=
  c.toNat == 32 || (decide (9 ≤ c.toNat) && decide (c.toNat ≤ 13))

/-- The bracket expression `[ \S]` of the pattern: a space, or anything that is
not white space. -/
def description_char (c : Char) : Bool := c.toNat == 32 || !is_space c

/-- The tail `(-[ \S]+|)\.sql$` of the pattern, matched against everything
that follows the direction word. -/
def match_suffix (rest : List Char) : Bool :=
  decide (4 ≤ rest.length) && (rest.drop (rest.length - 4) == ['.', 's', 'q', 'l']) &&
    (match rest.take (rest.length - 4) with
     | [] => true
     | c :: description => c == '-' && !description.isEmpty && description.all description_char)

/-- The call `std::regex_match(filename, match, filename_pattern)` with the
pattern `^(\d+)_(up|down)(-[ \S]+|)\.sql$`: on success the sub-matches `[1]`
(version digits) and `[2]` (direction word). -/
def regex_match (filename : List Char) : Option (List Char × List Char) :=
  let digits := filename.takeWhile is_digit
  if digits.isEmpty then none
  else
    match filename.dropWhile is_digit with
    | '_' :: 'u' :: 'p' :: rest =>
      if match_suffix rest then some (digits, ['u', 'p']) else none
    | '_' :: 'd' :: 'o' :: 'w' :: 'n' :: rest =>
      if match_suffix rest then some (digits, ['d', 'o', 'w', 'n']) else none
    | _ => none

/-- Largest value of `unsigned long` (64 bits, the LP64 data model). -/
def ULONG_MAX : Nat := 18446744073709551615

/-- Value of a string of decimal digits. -/
def decimal_value (digits : List Char) : Nat :=
  digits.foldl (fun acc c => 10 * acc + (c.toNat - 48)) 0

/-- The call `std::stoul(str)` on a string of decimal digits: the value, or
`std::out_of_range` when it does not fit `unsigned long`. -/
def std_stoul (digits : List Char) : Except Exception Nat :=
  if decimal_value digits > ULONG_MAX then Except.error Exception.out_of_range
  else Except.ok (decimal_value digits)

/-- Body of the scanner loop for one file name: no descriptor when the name
does not match, otherwise the descriptor built from the sub-matches, with
`static_cast<uint32_t>(std::stoul(match[1].str()))` as version. -/
def parse_filename (filename : String) : Except Exception (Option MigrationFile) :=
  match regex_match filename.data with
  | none => Except.ok none
  | some (version, word) =>
    match std_stoul version with
    | Except.error e => Except.error e
    | Except.ok value =>
      Except.ok (some ⟨filename, u32 value,
        if word == ['u', 'p'] then Direction.Up else Direction.Down⟩)

/-- A directory entry as the scanner and the runner use it. -/
structure DirEntry where
  filename : String
  is_regular_file : Bool
  file_size : Nat
  content : String
  deriving DecidableEq, Repr

/-- The function `get_migration_file_list`, on the entries that the directory
iterator delivers, in the order of delivery. -/
def get_migration_file_list : List DirEntry → Except Exception (List MigrationFile)
  | [] => Except.ok []
  | entry :: rest =>
    if entry.is_regular_file && decide (entry.file_size > 0) then
      match parse_filename entry.filename with
      | Except.error e => Except.error e
      | Except.ok none => get_migration_file_list rest
      | Except.ok (some file) =>
        match get_migration_file_list rest with
        | Except.error e => Except.error e
        | Except.ok files => Except.ok (file :: files)
    else get_migration_file_list rest

/-- The function `get_migration_file_sequence`. -/
def get_migration_file_sequence (entries : List DirEntry) (direction : Direction)
    (current_version target_version : Nat) : Except Exception (Option (List MigrationFile)) :=
  match get_migration_file_list entries with
  | Except.error e => Except.error e
  | Except.ok list => Except.ok (sequence_of_file_list list direction current_version target_version)

/-- The direction word of a file name. -/
def direction_word : Direction → List Char
  | Direction.Up => ['u', 'p']
  | Direction.Down => ['d', 'o', 'w', 'n']

/-- The optional description segment of a file name: nothing, or a hyphen and
the text. -/
def description_part : Option (List Char) → List Char
  | none => []
  | some text => '-' :: text

/-- A file name built the way the naming rule describes it: one or more decimal
digits, an underscore, `up` or `down`, optionally a hyphen with a non-empty
description whose characters satisfy `text_char`, and the extension `.sql`.
With `text_char` always true the description is free text, as the rule is
worded; with `description_char` it is the language of the pattern
`^(\d+)_(up|down)(-[ \S]+|)\.sql$`. -/
def name_shape (text_char : Char → Bool) (name digits : List Char) (d : Direction)
    (description : Option (List Char)) : Prop :=
  digits ≠ [] ∧ (∀ c ∈ digits, is_digit c = true) ∧
    (∀ text, description = some text → text ≠ [] ∧ ∀ c ∈ text, text_char c = true) ∧
    name = digits ++ '_' :: (direction_word d ++ (description_part description ++
      ['.', 's', 'q', 'l']))

/-! ## The transaction handle and the runner -/

/-- Calls that a run makes, in the order in which it makes them: on the file
system, on the collaborator behind `ConnectionInterface`, and on the
transaction handle (`commit` by the runner, `rollback` by the destructor of
the handle). -/
inductive Call where
  | is_directory
  | directory_iterator
  | read_file (path : String)
  | open_connection
  | get_user_version
  | begin_transaction
  | execute_statement (statement : String)
  | set_user_version (version : Nat)
  | commit
  | rollback
  | close_connection
  deriving DecidableEq, Repr

/-- What `open_connection` does: it returns a flag, or an exception derived
from `std::runtime_error` leaves it (`fs::create_directories`). -/
inductive OpenResult where
  | returned (ok : Bool)
  | threw
  deriving DecidableEq, Repr

/-- Behaviour of the collaborator during one run, one field per member of
`ConnectionInterface` and of the transaction handle that the runner reaches:
* `open_connection`: see `OpenResult`;
* `get_user_version`: the stored version, or `none` when it throws
  `std::runtime_error`;
* `execute_statement k sql`: the flag returned for the statement `sql` of the
  `k`-th migration file of the batch (counted from 0);
* `set_user_version v`: `false` when it throws `std::runtime_error`;
* `commit`, `rollback`: whether the statement of the handle succeeds;
* `close_connection`: the flag returned. -/
structure ConnectionInterface where
  open_connection : OpenResult
  get_user_version : Option Nat
  execute_statement : Nat → String → Bool
  set_user_version : Nat → Bool
  commit : Bool
  rollback : Bool
  close_connection : Bool

/-- The class `DatabaseTransaction`: the state of its `std::unique_lock`. -/
structure DatabaseTransaction where
  owns_lock : Bool
  deriving DecidableEq, Repr

/-- The constructor: the handle takes the lock over and begins the
transaction. -/
def DatabaseTransaction.create : DatabaseTransaction := ⟨true⟩

/-- What `commit()` and `rollback()` do once their statement has returned
`retval`: `mutex.unlock()`, which throws `std::system_error` (a
`std::runtime_error`) when the lock is not owned, and then
`QueryExecutionException` when the statement failed.  The lock is not owned
afterwards in either case. -/
def DatabaseTransaction.release (t : DatabaseTransaction) (retval : Bool) :
    DatabaseTransaction × Except Exception Unit :=
  if !t.owns_lock then (⟨false⟩, Except.error Exception.runtime_error)
  else (⟨false⟩, if retval then Except.ok () else Except.error Exception.QueryExecutionException)

/-- The member `commit()`: `COMMIT TRANSACTION` is executed, then the lock is
released and a failure of the statement is thrown. -/
def DatabaseTransaction.commit (db : ConnectionInterface) (t : DatabaseTransaction) :
    DatabaseTransaction × Except Exception Unit :=
  t.release db.commit

/-- The member `rollback()`: `ROLLBACK TRANSACTION` is executed, then the lock
is released and a failure of the statement is thrown. -/
def DatabaseTransaction.rollback (db : ConnectionInterface) (t : DatabaseTransaction) :
    DatabaseTransaction × Except Exception Unit :=
  t.release db.rollback

/-- The destructor: `rollback()` when the lock is still owned.  The result
lists the calls made and tells whether an exception leaves the destructor. -/
def DatabaseTransaction.destroy (db : ConnectionInterface) (t : DatabaseTransaction) :
    List Call × Except Exception Unit :=
  if t.owns_lock then ([Call.rollback], (t.rollback db).2) else ([], Except.ok ())

/-- The statement that a call on the transaction handle executes on the
connection. -/
def transaction_statement : Call → Option String
  | Call.begin_transaction => some "BEGIN TRANSACTION"
  | Call.commit => some "COMMIT TRANSACTION"
  | Call.rollback => some "ROLLBACK TRANSACTION"
  | _ => none

/-- The two members that the owner of a handle can call. -/
inductive TransactionCall where
  | commit
  | rollback
  deriving DecidableEq, Repr

/-- The handle after its owner has made the given calls, each paired with the
flag that its statement returned. -/
def DatabaseTransaction.after_calls :
    DatabaseTransaction → List (TransactionCall × Bool) → DatabaseTransaction
  | t, [] => t
  | t, (_, retval) :: rest => DatabaseTransaction.after_calls (t.release retval).1 rest

/-- Content that `std::ifstream` delivers for a path of the directory. -/
def read_file (entries : List DirEntry) (path : String) : String :=
  match entries.find? (fun entry => entry.filename == path) with
  | some entry => entry.content
  | none => ""

/-- The `for` loop of the runner over the sequenced files, the next file being
the `k`-th of the batch: the calls made, and whether every statement
succeeded (`false`: the loop was left by the `throw`). -/
def execute_files (db : ConnectionInterface) (entries : List DirEntry) :
    Nat → List MigrationFile → List Call × Bool
  | _, [] => ([], true)
  | k, item :: rest =>
    let init_sql := read_file entries item.path
    if db.execute_statement k init_sql then
      let later := execute_files db entries (k + 1) rest
      (Call.read_file item.path :: Call.execute_statement init_sql :: later.1, later.2)
    else ([Call.read_file item.path, Call.execute_statement init_sql], false)

/-- How a run ends. -/
inductive Outcome where
  | returned (retval : Bool)
  | threw (e : Exception)
  | terminated
  deriving DecidableEq, Repr

/-- Modelled from the spec: the header `database/exceptions.hpp`, which declares
`QueryExecutionException`, is not among the sources.  The second handler of
the runner is `catch (std::exception&)`, and a failing commit makes the run
fail, so `QueryExecutionException` is taken to derive from `std::exception`,
as `std::runtime_error` and `std::out_of_range` do. -/
def caught_as_std_exception : Exception → Bool
  | _ => true

/-- The exception `e` leaves the `try` block while the handle is alive: the
handle is destroyed during unwinding, and an exception leaving its destructor
ends the process; otherwise the handler, if it catches `e`, sets
`retval = false`. -/
def unwind (db : ConnectionInterface) (transaction : DatabaseTransaction) (e : Exception) :
    List Call × Outcome :=
  match transaction.destroy db with
  | (calls, Except.error _) => (calls, Outcome.terminated)
  | (calls, Except.ok _) =>
    (calls, if caught_as_std_exception e then Outcome.returned false else Outcome.threw e)

/-- The `try` block of the runner with its handler: the calls made, and either
the value of `retval` after it (`returned`), or the way the run ends inside
it. -/
def transaction_block (db : ConnectionInterface) (entries : List DirEntry)
    (list : List MigrationFile) (target_schema_version : Nat) : List Call × Outcome :=
  let transaction := DatabaseTransaction.create
  let loop := execute_files db entries 0 list
  if !loop.2 then
    let exit := unwind db transaction Exception.runtime_error
    (Call.begin_transaction :: loop.1 ++ exit.1, exit.2)
  else if !db.set_user_version target_schema_version then
    let exit := unwind db transaction Exception.runtime_error
    (Call.begin_transaction :: loop.1 ++ Call.set_user_version target_schema_version :: exit.1,
      exit.2)
  else
    match transaction.commit db with
    | (released, Except.error e) =>
      let exit := unwind db released e
      (Call.begin_transaction :: loop.1 ++
        Call.set_user_version target_schema_version :: Call.commit :: exit.1, exit.2)
    | (released, Except.ok _) =>
      (Call.begin_transaction :: loop.1 ++
        Call.set_user_version target_schema_version :: Call.commit :: (released.destroy db).1,
        Outcome.returned true)

/-- What the path `migration_file_directory` is on the file system, as the
call `fs::is_directory(migration_file_directory)` meets it: a directory with
its entries, something that is not a directory (a missing path included), or
a path whose status cannot be determined (a name that is too long, a loop of
symbolic links, a parent that may not be searched).  In the last case the
call, which is the throwing overload, throws
`std::filesystem::filesystem_error`. -/
inductive MigrationPath where
  | directory (entries : List DirEntry)
  | not_a_directory
  | status_error
  deriving DecidableEq, Repr

/-- The member `SchemaUpdater::apply_migration_files`.  The result is the way
the run ends and the calls it made.  The test `fs::is_directory` stands
outside every `try` block, so its exception leaves the run. -/
def apply_migration_files (db : ConnectionInterface)
    (migration_file_directory : MigrationPath) (target_schema_version : Nat) :
    Outcome × List Call :=
  match migration_file_directory with
  | MigrationPath.status_error => (Outcome.threw Exception.filesystem_error, [Call.is_directory])
  | MigrationPath.not_a_directory => (Outcome.returned false, [Call.is_directory])
  | MigrationPath.directory entries =>
    if target_schema_version == 0 then (Outcome.returned false, [Call.is_directory])
    else
      match db.open_connection with
      | OpenResult.threw => (Outcome.returned false, [Call.is_directory, Call.open_connection])
      | OpenResult.returned _ =>
        match db.get_user_version with
        | none =>
          (Outcome.returned false,
            [Call.is_directory, Call.open_connection, Call.get_user_version])
        | some current_version =>
          if current_version == target_schema_version then
            (Outcome.returned true,
              [Call.is_directory, Call.open_connection, Call.get_user_version,
                Call.close_connection])
          else
            match get_migration_file_sequence entries
                (run_direction current_version target_schema_version)
                current_version target_schema_version with
            | Except.error e =>
              (Outcome.threw e,
                [Call.is_directory, Call.open_connection, Call.get_user_version,
                  Call.directory_iterator])
            | Except.ok none =>
              (Outcome.returned false,
                [Call.is_directory, Call.open_connection, Call.get_user_version,
                  Call.directory_iterator, Call.close_connection])
            | Except.ok (some list) =>
              match transaction_block db entries list target_schema_version with
              | (calls, Outcome.returned retval) =>
                (Outcome.returned retval,
                  [Call.is_directory, Call.open_connection, Call.get_user_version,
                    Call.directory_iterator] ++ calls ++ [Call.close_connection])
              | (calls, ended) =>
                (ended,
                  [Call.is_directory, Call.open_connection, Call.get_user_version,
                    Call.directory_iterator] ++ calls)

/-- The flags that `execute_statement` returns for the files of a batch, the
first file being the `k`-th. -/
def batch_results (db : ConnectionInterface) (entries : List DirEntry) :
    Nat → List MigrationFile → List Bool
  | _, [] => []
  | k, item :: rest =>
    db.execute_statement k (read_file entries item.path) :: batch_results db entries (k + 1) rest

/-- The calls that the loop of the runner makes for one file. -/
def file_calls (entries : List DirEntry) (item : MigrationFile) : List Call :=
  [Call.read_file item.path, Call.execute_statement (read_file entries item.path)]

/-- The calls with which a run reaches its `try` block. -/
def calls_before_batch : List Call :=
  [Call.is_directory, Call.open_connection, Call.get_user_version, Call.directory_iterator,
    Call.begin_transaction]

/-- The value of `user_version` after the writes among the given calls, from
the value before them: `set_user_version` is the only member that writes it,
and it writes when its statement succeeds. -/
def written_version (db : ConnectionInterface) : Nat → List Call → Nat
  | stored, [] => stored
  | stored, Call.set_user_version v :: rest =>
    written_version db (if db.set_user_version v then v else stored) rest
  | stored, _ :: rest => written_version db stored rest

/-- A collaborator that behaves like `db` but whose `close_connection` returns
the given flag. -/
def with_close_result (db : ConnectionInterface) (flag : Bool) : ConnectionInterface :=
  ⟨db.open_connection, db.get_user_version, db.execute_statement, db.set_user_version,
    db.commit, db.rollback, flag⟩

/-- A collaborator on which every call succeeds except the ones named: the
flag of `open_connection`, the position of the batch at which
`execute_statement` fails (if any), and the flags of `set_user_version` and of
the `ROLLBACK` of the handle. -/
def scripted (stored : Nat) (open_ok : Bool) (failing_file : Option Nat)
    (set_version_ok rollback_ok : Bool) : ConnectionInterface :=
  ⟨OpenResult.returned open_ok, some stored, fun k _ => !(failing_file == some k),
    fun _ => set_version_ok, true, rollback_ok, true⟩

/-- A collaborator whose `get_user_version` throws. -/
def unreadable_version : ConnectionInterface :=
  ⟨OpenResult.returned true, none, fun _ _ => true, fun _ => true, true, true, true⟩

/-- A regular, non-empty file of the given name and content. -/
def sql_file (filename content : String) : DirEntry := ⟨filename, true, content.length, content⟩

/-- A collaborator on which every call succeeds, with the given stored
version. -/
def healthy (stored : Nat) : ConnectionInterface :=
  ⟨OpenResult.returned true, some stored, fun _ _ => true, fun _ => true, true, true, true⟩

/-- Three migration files for the versions 1 and 2. -/
def two_versions : List DirEntry :=
  [sql_file "2_down.sql" "DROP TABLE b;", sql_file "1_up.sql" "CREATE TABLE a(x);",
    sql_file "2_up-add_b.sql" "CREATE TABLE b(y);"]



/-! ## The binders of `Statement` -/

/-- The enumeration `SQLiteString`, the lifetime argument of `bind_text`:
`Static` selects `SQLITE_STATIC`, any other value `SQLITE_TRANSIENT`. -/
inductive SQLiteString where
  | Static
  | Transient
  deriving DecidableEq, Repr

/-- The destructor argument of `sqlite3_bind_text`. -/
inductive TextDestructor where
  | SQLITE_STATIC
  | SQLITE_TRANSIENT
  deriving DecidableEq, Repr

/-- What one call of a `sqlite3_bind_*` function binds.  A `double` stands for
itself as an uninterpreted bit pattern: the binders hand it on unchanged. -/
inductive BoundValue where
  | text (val : String) (destructor : TextDestructor)
  | int (val : Int)
  | int64 (val : Int)
  | double (bits : Nat)
  | null
  deriving DecidableEq, Repr

/-- The class `Statement`, as far as the binders use it: what the C API answers
for the prepared statement `this->stmt`, and the binds made on it so far.
* `sqlite3_bind_parameter_index name`: index of the named parameter, 0 when
  the query has none of that name;
* `sqlite3_bind made idx value`: result code of the bind of `value` at `idx`
  after the binds `made`. -/
structure Statement where
  sqlite3_bind_parameter_index : String → Int
  sqlite3_bind : List (Int × BoundValue) → Int → BoundValue → Int
  binds : List (Int × BoundValue)

/-- The C string behind `param.c_str()`: the characters before the first NUL. -/
def c_str (param : String) : String := String.mk (param.data.takeWhile (fun c => c.toNat != 0))

/-- One call of a `sqlite3_bind_*` function on `this->stmt`: the result code,
and the statement with the bind recorded. -/
def Statement.sqlite3_bind_call (stmt : Statement) (idx : Int) (value : BoundValue) :
    Int × Statement :=
  (stmt.sqlite3_bind stmt.binds idx value,
    ⟨stmt.sqlite3_bind_parameter_index, stmt.sqlite3_bind, stmt.binds ++ [(idx, value)]⟩)

/-- The member `bind_text(const int idx, const std::string& val, SQLiteString lifetime)`. -/
def Statement.bind_text (stmt : Statement) (idx : Int) (val : String) (lifetime : SQLiteString) :
    Int × Statement :=
  stmt.sqlite3_bind_call idx
    (BoundValue.text val
      (if lifetime = SQLiteString.Static then TextDestructor.SQLITE_STATIC
       else TextDestructor.SQLITE_TRANSIENT))

/-- The member `bind_int(const int idx, const int val)`. -/
def Statement.bind_int (stmt : Statement) (idx : Int) (val : Int) : Int × Statement :=
  stmt.sqlite3_bind_call idx (BoundValue.int val)

/-- The member `bind_int64(const int idx, const int64_t val)`. -/
def Statement.bind_int64 (stmt : Statement) (idx : Int) (val : Int) : Int × Statement :=
  stmt.sqlite3_bind_call idx (BoundValue.int64 val)

/-- The member `bind_double(const int idx, const double val)`. -/
def Statement.bind_double (stmt : Statement) (idx : Int) (val : Nat) : Int × Statement :=
  stmt.sqlite3_bind_call idx (BoundValue.double val)

/-- The member `bind_null(const int idx)`. -/
def Statement.bind_null (stmt : Statement) (idx : Int) : Int × Statement :=
  stmt.sqlite3_bind_call idx BoundValue.null

/-- The member `bind_text(const std::string& param, const std::string& val,
SQLiteString lifetime)`: the returned code or the exception thrown, and the
statement after the call. -/
def Statement.bind_text_by_name (stmt : Statement) (param : String) (val : String)
    (lifetime : SQLiteString) : Except Exception Int × Statement :=
  let index := stmt.sqlite3_bind_parameter_index (c_str param)
  if index ≤ 0 then (Except.error Exception.out_of_range, stmt)
  else (Except.ok (stmt.bind_text index val lifetime).1, (stmt.bind_text index val lifetime).2)

/-- The member `bind_int(const std::string& param, const int val)`. -/
def Statement.bind_int_by_name (stmt : Statement) (param : String) (val : Int) :
    Except Exception Int × Statement :=
  let index := stmt.sqlite3_bind_parameter_index (c_str param)
  if index ≤ 0 then (Except.error Exception.out_of_range, stmt)
  else (Except.ok (stmt.bind_int index val).1, (stmt.bind_int index val).2)

/-- The member `bind_int64(const std::string& param, const int64_t val)`. -/
def Statement.bind_int64_by_name (stmt : Statement) (param : String) (val : Int) :
    Except Exception Int × Statement :=
  let index := stmt.sqlite3_bind_parameter_index (c_str param)
  if index ≤ 0 then (Except.error Exception.out_of_range, stmt)
  else (Except.ok (stmt.bind_int64 index val).1, (stmt.bind_int64 index val).2)

/-- The member `bind_double(const std::string& param, const double val)`. -/
def Statement.bind_double_by_name (stmt : Statement) (param : String) (val : Nat) :
    Except Exception Int × Statement :=
  let index := stmt.sqlite3_bind_parameter_index (c_str param)
  if index ≤ 0 then (Except.error Exception.out_of_range, stmt)
  else (Except.ok (stmt.bind_double index val).1, (stmt.bind_double index val).2)

/-- The member `bind_null(const std::string& param)`. -/
def Statement.bind_null_by_name (stmt : Statement) (param : String) :
    Except Exception Int × Statement :=
  let index := stmt.sqlite3_bind_parameter_index (c_str param)
  if index ≤ 0 then (Except.error Exception.out_of_range, stmt)
  else (Except.ok (stmt.bind_null index).1, (stmt.bind_null index).2)

/-- The statement of the test `InvalidParameterThrows`,
`SELECT * FROM test_table WHERE name = :name;`: one parameter, `:name`, and
binds that succeed at index 1 and are out of range elsewhere. -/
def select_by_name : Statement :=
  ⟨fun name => if name = ":name" then 1 else 0, fun _ idx _ => if idx = 1 then 0 else 25, []⟩

/-! ## Auxiliary definitions -/

/-- Position of a descriptor in the order of the validator, as one number. -/
def sort_key (f : MigrationFile) : Nat := 2 * f.version + f.direction.toNat

/-- The same number computed from an identity. -/
def identity_key (p : Nat × Direction) : Nat := 2 * p.1 + p.2.toNat

/-- The two identities of a version after the first. -/
def version_pair (v : Nat) : List (Nat × Direction) := [(v, Direction.Up), (v, Direction.Down)]

/-- A descriptor with the given identity and an empty path, for examples. -/
def mf (v : Nat) (d : Direction) : MigrationFile := ⟨"", v, d⟩

/-- The three-version file set, in scan order. -/
def three_versions : List MigrationFile :=
  [mf 3 .Down, mf 2 .Up, mf 1 .Up, mf 3 .Up, mf 2 .Down]

/-- The file set for five versions, in an arbitrary scan order. -/
def five_versions : List MigrationFile :=
  [⟨"3_down.sql", 3, Direction.Down⟩, ⟨"5_up.sql", 5, Direction.Up⟩,
    ⟨"1_up.sql", 1, Direction.Up⟩, ⟨"4_down.sql", 4, Direction.Down⟩,
    ⟨"2_up.sql", 2, Direction.Up⟩, ⟨"5_down.sql", 5, Direction.Down⟩,
    ⟨"3_up.sql", 3, Direction.Up⟩, ⟨"2_down.sql", 2, Direction.Down⟩,
    ⟨"4_up.sql", 4, Direction.Up⟩]

/-! ## Facts about the sort -/

theorem sort_insert_perm {α : Type} (comp : α → α → Bool) (x : α) (l : List α) :
    (sort_insert comp x l).Perm (x :: l) := by
  induction l with
  | nil => exact List.Perm.refl _
  | cons y ys ih =>
    unfold sort_insert
    split
    · exact List.Perm.refl _
    · exact (List.Perm.cons y ih).trans (List.Perm.swap x y ys)

theorem std_sort_perm {α : Type} (comp : α → α → Bool) (l : List α) :
    (std_sort comp l).Perm l := by
  induction l with
  | nil => exact List.Perm.refl _
  | cons x xs ih =>
    unfold std_sort
    exact (sort_insert_perm comp x _).trans (List.Perm.cons x ih)

theorem sort_insert_sorted {α β : Type} [LinearOrder β] (k : α → β) (comp : α → α → Bool)
    (hc : ∀ a b, comp a b = decide (k a < k b)) (x : α) (l : List α)
    (hl : (l.map k).Sorted (· ≤ ·)) : ((sort_insert comp x l).map k).Sorted (· ≤ ·) := by
  induction l with
  | nil => simp [sort_insert]
  | cons y ys ih =>
    have hy : (∀ b ∈ ys.map k, k y ≤ b) ∧ (ys.map k).Sorted (· ≤ ·) :=
      List.sorted_cons.mp hl
    unfold sort_insert
    by_cases hxy : k x < k y
    · rw [hc, decide_eq_true hxy]
      simp only [if_true, List.map_cons]
      refine List.sorted_cons.mpr ⟨?_, hl⟩
      intro b hb
      rcases List.mem_cons.mp hb with hb | hb
      · exact hb ▸ le_of_lt hxy
      · exact le_trans (le_of_lt hxy) (hy.1 b hb)
    · rw [hc, decide_eq_false hxy]
      simp only [Bool.false_eq_true, if_false, List.map_cons]
      refine List.sorted_cons.mpr ⟨?_, ih hy.2⟩
      intro b hb
      have hb' : b ∈ (x :: ys).map k := ((sort_insert_perm comp x ys).map k).mem_iff.mp hb
      rcases List.mem_cons.mp hb' with hb'' | hb''
      · exact hb'' ▸ not_lt.mp hxy
      · exact hy.1 b hb''

theorem std_sort_sorted {α β : Type} [LinearOrder β] (k : α → β) (comp : α → α → Bool)
    (hc : ∀ a b, comp a b = decide (k a < k b)) (l : List α) :
    ((std_sort comp l).map k).Sorted (· ≤ ·) := by
  induction l with
  | nil => simp [std_sort]
  | cons x xs ih =>
    unfold std_sort
    exact sort_insert_sorted k comp hc x _ ih

/-- Sorting a list whose keys are a rearrangement of an ordered key list
produces exactly that key list. -/
theorem std_sort_keys {α β : Type} [LinearOrder β] (k : α → β) (comp : α → α → Bool)
    (hc : ∀ a b, comp a b = decide (k a < k b)) (l : List α) (ks : List β)
    (hp : (l.map k).Perm ks) (hs : ks.Sorted (· ≤ ·)) : (std_sort comp l).map k = ks :=
  List.eq_of_perm_of_sorted (((std_sort_perm comp l).map k).trans hp)
    (std_sort_sorted k comp hc l) hs

/-! ## Keys of descriptors -/

theorem tie_less_eq (a b : MigrationFile) :
    tie_less a b = decide (sort_key a < sort_key b) := by
  rw [Bool.eq_iff_iff]
  cases ha : a.direction <;> cases hb : b.direction <;>
    simp [tie_less, sort_key, Direction.toNat, ha, hb] <;> omega

theorem identity_key_injective : Function.Injective identity_key := by
  rintro ⟨v, d⟩ ⟨w, e⟩ h
  cases d <;> cases e <;> simp [identity_key, Direction.toNat] at h ⊢ <;> omega

theorem sort_key_eq (f : MigrationFile) : sort_key f = identity_key f.identity := rfl

theorem complete_identities_eq (n : Nat) :
    complete_identities n = (1, Direction.Up) :: (List.range' 2 (n - 1)).flatMap version_pair :=
  rfl

theorem pair_keys (v n : Nat) :
    ((List.range' v n).flatMap version_pair).map identity_key = List.range' (2 * v) (2 * n) := by
  induction n generalizing v with
  | zero => simp
  | succ n ih =>
    have h2 : 2 * (n + 1) = (2 * n + 1) + 1 := by omega
    rw [List.range'_succ, List.flatMap_cons, List.map_append, ih (v + 1), h2, List.range'_succ,
      List.range'_succ]
    simp [version_pair, identity_key, Direction.toNat]
    omega

theorem complete_keys (n : Nat) :
    (complete_identities n).map identity_key = 2 :: List.range' 4 (2 * (n - 1)) := by
  rw [complete_identities_eq, List.map_cons, pair_keys]
  simp [identity_key, Direction.toNat]

theorem complete_keys_sorted (n : Nat) :
    ((complete_identities n).map identity_key).Sorted (· ≤ ·) := by
  rw [complete_keys]
  refine List.sorted_cons.mpr ⟨?_, List.pairwise_le_range' 4 _⟩
  intro b hb
  have := (List.mem_range'_1.mp hb).1
  omega

theorem complete_identities_length (n : Nat) : (complete_identities n).length = 2 * (n - 1) + 1 := by
  have h := congrArg List.length (complete_keys n)
  simpa using h

/-- Sorting any arrangement of a complete set with the comparator of the
validator yields the identities in their canonical order. -/
theorem sorted_identities (list : List MigrationFile) (n : Nat)
    (hp : (list.map MigrationFile.identity).Perm (complete_identities n)) :
    (std_sort tie_less list).map MigrationFile.identity = complete_identities n := by
  apply List.map_injective_iff.mpr identity_key_injective
  have hk : ∀ l : List MigrationFile,
      (l.map MigrationFile.identity).map identity_key = l.map sort_key := by
    intro l
    rw [List.map_map]
    rfl
  rw [hk]
  refine std_sort_keys sort_key tie_less tie_less_eq list _ ?_ (complete_keys_sorted n)
  rw [← hk]
  exact hp.map identity_key

/-- The loop accepts a run of consecutive pairs as long as the expected version
stays within 32 bits. -/
theorem validation_loop_complete (n v i : Nat) (rest : List MigrationFile)
    (hi : i / 2 + 2 = v) (hv : v + n ≤ 4294967296)
    (hr : rest.map MigrationFile.identity = (List.range' v n).flatMap version_pair) :
    validation_loop i rest = true := by
  induction n generalizing v i rest with
  | zero =>
    simp at hr
    subst hr
    rfl
  | succ n ih =>
    rw [List.range'_succ, List.flatMap_cons] at hr
    rcases rest with _ | ⟨up, _ | ⟨down, tail⟩⟩
    · simp [version_pair] at hr
    · simp [version_pair] at hr
    · simp only [version_pair, List.map_cons, List.cons_append, List.nil_append,
        List.cons.injEq, MigrationFile.identity, Prod.mk.injEq] at hr
      obtain ⟨⟨hu1, hu2⟩, ⟨hd1, hd2⟩, ht⟩ := hr
      have hexp : u32 (i / 2 + 2) = v := by
        unfold u32
        omega
      unfold validation_loop
      simp only [hexp, hu1, hu2, hd1, hd2, bne_self_eq_false, Bool.or_self, Bool.false_eq_true,
        if_false]
      exact ih (v + 1) (i + 2) tail (by omega) (by omega) ht

/-! ## Validation of complete file sets -/

/-- Result of the validator on any arrangement of a complete set. -/
theorem valid_complete_aux (list : List MigrationFile) (m n : Nat)
    (h1 : 1 ≤ m) (hmn : m ≤ n) (h32 : n < 4294967296)
    (hp : (list.map MigrationFile.identity).Perm (complete_identities n)) :
    is_migration_file_list_valid list m = (true, std_sort tie_less list) := by
  have hlen : list.length = 2 * (n - 1) + 1 := by
    have := hp.length_eq
    rw [complete_identities_length] at this
    simpa using this
  have hs := sorted_identities list n hp
  rw [complete_identities_eq] at hs
  have hA : ¬ list.length < u32 (u32 (m * 2) + 4294967295) := by
    unfold u32
    omega
  have hB : ¬ (list.length % 2 == 0) = true := by
    simp
    omega
  simp only [is_migration_file_list_valid]
  rw [if_neg hA, if_neg hB]
  cases hsort : std_sort tie_less list with
  | nil =>
    rw [hsort] at hs
    simp at hs
  | cons first rest =>
    rw [hsort] at hs
    simp only [List.map_cons, List.cons.injEq, MigrationFile.identity, Prod.mk.injEq] at hs
    obtain ⟨⟨hv, hd⟩, hrest⟩ := hs
    have hloop := validation_loop_complete (n - 1) 2 1 rest rfl (by omega) hrest
    simp [hv, hd, hloop]

/-- C1: for every `max_version >= 1` in the range of `uint32_t` and every
ordering of a descriptor list holding one `Up` for version 1 and one `Up` and
one `Down` for each version `2 .. max_version`, the list has
`2 * max_version - 1` elements and `is_migration_file_list_valid` returns
true. -/
theorem complete_set_is_valid (list : List MigrationFile) (max_version : Nat)
    (h1 : 1 ≤ max_version) (h32 : max_version < 4294967296)
    (hp : (list.map MigrationFile.identity).Perm (complete_identities max_version)) :
    list.length = 2 * max_version - 1 ∧
      (is_migration_file_list_valid list max_version).1 = true := by
  constructor
  · have := hp.length_eq
    rw [complete_identities_length] at this
    simp at this
    omega
  · rw [valid_complete_aux list max_version max_version h1 (le_refl _) h32 hp]

/-- Instance of `complete_set_is_valid`: the three-version set in scan
order. -/
theorem complete_set_is_valid_witness :
    1 ≤ 3 ∧ 3 < 4294967296 ∧
      (three_versions.map MigrationFile.identity).Perm (complete_identities 3) ∧
      three_versions.length = 2 * 3 - 1 ∧
      (is_migration_file_list_valid three_versions 3).1 = true :=
  ⟨by decide, by decide, by decide,
    complete_set_is_valid three_versions 3 (by decide) (by decide) (by decide)⟩

/-- What the loop has checked when it returns true, on elements whose
versions are positive: a run of consecutive pairs. -/
theorem validation_loop_sound (m : Nat) : ∀ (rest : List MigrationFile) (i v : Nat),
    rest.length ≤ m → i / 2 + 2 = v → v ≤ 4294967296 → (∀ f ∈ rest, 1 ≤ f.version) →
    validation_loop i rest = true →
    ∃ n, rest.map MigrationFile.identity = (List.range' v n).flatMap version_pair := by
  induction m with
  | zero =>
    intro rest i v hlen _ _ _ _
    have : rest = [] := List.length_eq_zero.mp (by omega)
    exact ⟨0, by simp [this]⟩
  | succ m ih =>
    intro rest i v hlen hi hv hpos h
    rcases rest with _ | ⟨up, _ | ⟨down, tail⟩⟩
    · exact ⟨0, by simp⟩
    · simp [validation_loop] at h
    · simp [validation_loop] at h
      obtain ⟨⟨hu1, hu2⟩, ⟨hd1, hd2⟩, hrest⟩ := h
      have hup := hpos up (by simp)
      have hvlt : v < 4294967296 := by
        by_contra hc
        have hv2 : i / 2 + 2 = 4294967296 := by omega
        rw [hv2] at hu1
        simp [u32] at hu1
        omega
      have hexp : u32 (i / 2 + 2) = v := by
        unfold u32
        omega
      obtain ⟨n, hn⟩ := ih tail (i + 2) (v + 1) (by simp at hlen; omega) (by omega) (by omega)
        (fun f hf => hpos f (by simp [hf])) hrest
      refine ⟨n + 1, ?_⟩
      rw [List.range'_succ, List.flatMap_cons, ← hn]
      simp [version_pair, MigrationFile.identity, hu1, hu2, hd1, hd2, hexp]

/-- C9, as stated, fails: the validator accepts the complete set for three
versions (five descriptors) against `max_version = 2`, although the claim
requires `2 * 2 - 1 = 3` descriptors. -/
theorem valid_list_larger_than_expected :
    ¬ (∀ (list : List MigrationFile) (max_version : Nat),
        (is_migration_file_list_valid list max_version).1 = true →
        list.length = 2 * max_version - 1 ∧
          (list.map MigrationFile.identity).Perm (complete_identities max_version)) := by
  intro h
  have h5 := (h three_versions 2 (by decide)).1
  revert h5
  decide

/-- C9, amended: when `is_migration_file_list_valid(list, max_version)` returns
true, the list is a complete set for some highest version `M >= 1`: it has
exactly `2 * M - 1` descriptors, one `Up` for version 1 and one `Up` and one
`Down` for every version in `[2, M]`, and nothing else; and `M` is at least
`max_version` whenever `2 * max_version - 1` fits 32 bits. -/
theorem valid_list_is_complete (list : List MigrationFile) (max_version : Nat)
    (h : (is_migration_file_list_valid list max_version).1 = true) :
    ∃ M, 1 ≤ M ∧ (max_version ≤ 2147483648 → max_version ≤ M) ∧
      list.length = 2 * M - 1 ∧
      (list.map MigrationFile.identity).Perm (complete_identities M) := by
  simp only [is_migration_file_list_valid] at h
  by_cases hA : list.length < u32 (u32 (max_version * 2) + 4294967295)
  · simp [hA] at h
  rw [if_neg hA] at h
  by_cases hB : (list.length % 2 == 0) = true
  · simp [hB] at h
  rw [if_neg hB] at h
  have hsorted := std_sort_sorted sort_key tie_less tie_less_eq list
  have hperm := std_sort_perm tie_less list
  cases hsort : std_sort tie_less list with
  | nil => simp [hsort] at h
  | cons first rest =>
    rw [hsort] at h hsorted hperm
    simp only at h
    by_cases hF : (first.version != 1 || first.direction != Direction.Up) = true
    · simp [hF] at h
    rw [if_neg hF] at h
    simp at hF
    have hpos : ∀ f ∈ rest, 1 ≤ f.version := by
      intro f hf
      have hle := (List.sorted_cons.mp hsorted).1 (sort_key f) (List.mem_map_of_mem _ hf)
      have hd : f.direction.toNat ≤ 1 := by cases f.direction <;> simp [Direction.toNat]
      have hfirst : sort_key first = 2 := by simp [sort_key, hF.1, hF.2, Direction.toNat]
      rw [hfirst] at hle
      unfold sort_key at hle
      omega
    obtain ⟨n, hn⟩ := validation_loop_sound rest.length rest 1 2 (le_refl _) rfl (by omega) hpos h
    have hid : (first :: rest).map MigrationFile.identity = complete_identities (n + 1) := by
      rw [complete_identities_eq, List.map_cons, hn]
      simp [MigrationFile.identity, hF.1, hF.2]
    have hlp : (list.map MigrationFile.identity).Perm (complete_identities (n + 1)) :=
      hid ▸ (hperm.symm.map MigrationFile.identity)
    have hlen : list.length = 2 * n + 1 := by
      have := hlp.length_eq
      rw [complete_identities_length] at this
      simpa using this
    refine ⟨n + 1, by omega, ?_, by omega, hlp⟩
    intro hm
    unfold u32 at hA
    omega

/-- Instance of `valid_list_is_complete`: the three-version set validated
against `max_version = 2`. -/
theorem valid_list_is_complete_witness :
    (is_migration_file_list_valid three_versions 2).1 = true ∧
      ∃ M, 1 ≤ M ∧ ((2 : Nat) ≤ 2147483648 → 2 ≤ M) ∧
        three_versions.length = 2 * M - 1 ∧
        (three_versions.map MigrationFile.identity).Perm (complete_identities M) :=
  ⟨by decide, valid_list_is_complete three_versions 2 (by decide)⟩

/-- C5: the code accepts a list that is shorter than `2 * max_version - 1`.
For `max_version = 2^31 + 1` the 32-bit product `max_version * 2` wraps to 2,
so `expected_files` is 1 and the single descriptor `1_up.sql` passes. -/
theorem short_list_accepted_after_wraparound :
    [(⟨"1_up.sql", 1, Direction.Up⟩ : MigrationFile)].length < 2 * 2147483649 - 1 ∧
      2147483649 < 4294967296 ∧
      (is_migration_file_list_valid [⟨"1_up.sql", 1, Direction.Up⟩] 2147483649).1 = true := by
  decide


/-! ## Sequencing -/

theorem mem_complete_identities (n v : Nat) (d : Direction) (h1 : 1 ≤ n) :
    (v, d) ∈ complete_identities n ↔ (v = 1 ∧ d = Direction.Up) ∨ (2 ≤ v ∧ v ≤ n) := by
  simp only [complete_identities, List.mem_cons, Prod.mk.injEq, List.mem_flatMap,
    List.mem_range'_1, List.mem_singleton, List.not_mem_nil, or_false]
  constructor
  · rintro (h | ⟨a, ha, h | h⟩)
    · exact Or.inl h
    · exact Or.inr (by omega)
    · exact Or.inr (by omega)
  · rintro (h | h)
    · exact Or.inl h
    · refine Or.inr ⟨v, by omega, ?_⟩
      cases d <;> simp

theorem complete_identities_nodup (n : Nat) : (complete_identities n).Nodup := by
  apply List.Nodup.of_map identity_key
  rw [complete_keys]
  refine List.nodup_cons.mpr ⟨?_, List.nodup_range' 4 _⟩
  intro h
  have := (List.mem_range'_1.mp h).1
  omega

/-- Outcome of `filter_and_sort_migration_file_list` on a vector without
duplicate identities: the kept versions, in the order of the comparator. -/
theorem filter_and_sort_identities (S : List MigrationFile) (dir : Direction) (lo hi : Nat)
    (g : Nat → Int) (hg : Function.Injective g)
    (hc : ∀ a b, direction_less dir a b = decide (g a.version < g b.version))
    (E : List Nat) (hS : (S.map MigrationFile.identity).Nodup)
    (hmem : ∀ v, v ∈ E ↔ ((v, dir) ∈ S.map MigrationFile.identity ∧ lo ≤ v ∧ v ≤ hi))
    (hnd : E.Nodup) (hsorted : (E.map g).Sorted (· ≤ ·)) :
    (filter_and_sort_migration_file_list S dir lo hi).map MigrationFile.identity
        = E.map (fun v => (v, dir)) ∧
      ∀ f ∈ filter_and_sort_migration_file_list S dir lo hi, f ∈ S := by
  simp only [filter_and_sort_migration_file_list]
  generalize hF : S.filter (fun item => !(item.direction != dir || decide (item.version < lo) ||
      decide (item.version > hi))) = F
  have hFmem : ∀ f, f ∈ F ↔ f ∈ S ∧ f.direction = dir ∧ lo ≤ f.version ∧ f.version ≤ hi := by
    intro f
    rw [← hF, List.mem_filter]
    simp
    intro _
    constructor
    · rintro ⟨⟨h1, h2⟩, h3⟩
      exact ⟨h1, h2, h3⟩
    · rintro ⟨h1, h2, h3⟩
      exact ⟨⟨h1, h2⟩, h3⟩
  have hFsub : F.Sublist S := hF ▸ List.filter_sublist S
  have hFid : F.map MigrationFile.identity = (F.map (fun f => f.version)).map (fun v => (v, dir)) := by
    rw [List.map_map]
    apply List.map_congr_left
    intro f hf
    simp [MigrationFile.identity, ((hFmem f).mp hf).2.1]
  have hFnd : (F.map (fun f => f.version)).Nodup := by
    apply List.Nodup.of_map (fun v => (v, dir))
    rw [← hFid]
    exact hS.sublist (hFsub.map _)
  have hFperm : (F.map (fun f => f.version)).Perm E := by
    rw [List.perm_ext_iff_of_nodup hFnd hnd]
    intro v
    rw [hmem v, List.mem_map, List.mem_map]
    constructor
    · rintro ⟨f, hf, rfl⟩
      obtain ⟨h1, h2, h3, h4⟩ := (hFmem f).mp hf
      exact ⟨⟨f, h1, by simp [MigrationFile.identity, h2]⟩, h3, h4⟩
    · rintro ⟨⟨f, hf, hid⟩, h3, h4⟩
      simp only [MigrationFile.identity, Prod.mk.injEq] at hid
      exact ⟨f, (hFmem f).mpr ⟨hf, hid.2, hid.1 ▸ h3, hid.1 ▸ h4⟩, hid.1⟩
  have hR := std_sort_keys (fun f => g f.version) (direction_less dir) hc F (E.map g)
    (by simpa [List.map_map] using hFperm.map g) hsorted
  have hRperm := std_sort_perm (direction_less dir) F
  have hRv : (std_sort (direction_less dir) F).map (fun f => f.version) = E := by
    apply List.map_injective_iff.mpr hg
    simpa [List.map_map] using hR
  constructor
  · rw [← hRv, List.map_map]
    apply List.map_congr_left
    intro f hf
    simp [MigrationFile.identity, ((hFmem f).mp (hRperm.mem_iff.mp hf)).2.1]
  · intro f hf
    exact ((hFmem f).mp (hRperm.mem_iff.mp hf)).1

theorem sorted_up_keys (a n : Nat) :
    ((List.range' a n).map (fun (v : Nat) => (v : Int))).Sorted (· ≤ ·) := by
  unfold List.Sorted
  rw [List.pairwise_map]
  exact (List.pairwise_le_range' a n).imp (fun h => by exact_mod_cast h)

theorem sorted_down_keys (a n : Nat) :
    ((List.range' a n).reverse.map (fun (v : Nat) => -(v : Int))).Sorted (· ≤ ·) := by
  unfold List.Sorted
  rw [List.pairwise_map, List.pairwise_reverse]
  exact (List.pairwise_le_range' a n).imp (fun h => by omega)

/-- C2: on any ordering of the complete set for the versions `1 .. N`, with
`current != target`, `target >= 1` and both at most `N`, validation followed by
`filter_and_sort_migration_file_list` yields `|current - target|` descriptors
of the list: the `Up` descriptors of `current + 1, ..., target` in ascending
order for an upgrade, the `Down` descriptors of `current, ..., target + 1` in
descending order for a downgrade. -/
theorem sequence_of_complete_set (list : List MigrationFile) (N current target : Nat)
    (hN : 1 ≤ N) (hN32 : N < 4294967296)
    (hp : (list.map MigrationFile.identity).Perm (complete_identities N))
    (hne : current ≠ target) (ht : 1 ≤ target) (hmax : max current target ≤ N) :
    ∃ result,
      sequence_of_file_list list (run_direction current target) current target = some result ∧
      result.length = max current target - min current target ∧
      (∀ f ∈ result, f ∈ list) ∧
      (current < target → result.map MigrationFile.identity =
        (List.range' (current + 1) (target - current)).map (fun v => (v, Direction.Up))) ∧
      (target < current → result.map MigrationFile.identity =
        (List.range' (target + 1) (current - target)).reverse.map
          (fun v => (v, Direction.Down))) := by
  have haux := valid_complete_aux list (max current target) N (by omega) hmax hN32 hp
  have hsid := sorted_identities list N hp
  have hS : ((std_sort tie_less list).map MigrationFile.identity).Nodup :=
    hsid ▸ complete_identities_nodup N
  have hlist : ∀ f ∈ std_sort tie_less list, f ∈ list :=
    fun f hf => (std_sort_perm tie_less list).mem_iff.mp hf
  simp only [sequence_of_file_list, haux, Bool.not_true, Bool.false_eq_true, if_false]
  rcases Nat.lt_or_gt_of_ne hne with h | h
  · have hdir : run_direction current target = Direction.Up := by
      simp [run_direction]
      omega
    have hlo : u32 (min current target + 1) = current + 1 := by
      unfold u32
      omega
    have hhi : max current target = target := by omega
    rw [hdir, hlo, hhi]
    obtain ⟨hid, hsub⟩ := filter_and_sort_identities (std_sort tie_less list) Direction.Up
      (current + 1) target (fun (v : Nat) => (v : Int)) (fun a b hab => by simpa using hab)
      (fun a b => by simp [direction_less])
      (List.range' (current + 1) (target - current)) hS
      (fun v => by
        rw [hsid, mem_complete_identities N v _ hN, List.mem_range'_1]
        simp
        omega)
      (List.nodup_range' _ _) (sorted_up_keys _ _)
    refine ⟨_, rfl, ?_, fun f hf => hlist f (hsub f hf), fun _ => hid, fun h2 => by omega⟩
    have := congrArg List.length hid
    simp at this
    omega
  · have hdir : run_direction current target = Direction.Down := by
      simp [run_direction]
      omega
    have hlo : u32 (min current target + 1) = target + 1 := by
      unfold u32
      omega
    have hhi : max current target = current := by omega
    rw [hdir, hlo, hhi]
    obtain ⟨hid, hsub⟩ := filter_and_sort_identities (std_sort tie_less list) Direction.Down
      (target + 1) current (fun (v : Nat) => -(v : Int)) (fun a b hab => by simpa using hab)
      (fun a b => by simp [direction_less])
      (List.range' (target + 1) (current - target)).reverse hS
      (fun v => by
        rw [hsid, mem_complete_identities N v _ hN, List.mem_reverse, List.mem_range'_1]
        simp
        omega)
      (List.nodup_reverse.mpr (List.nodup_range' _ _)) (sorted_down_keys _ _)
    refine ⟨_, rfl, ?_, fun f hf => hlist f (hsub f hf), fun h2 => by omega, fun _ => hid⟩
    have := congrArg List.length hid
    simp at this
    omega


/-- Instance of `sequence_of_complete_set` on the five-version set, for the
upgrade from 2 to 5, with both sequences of the claim evaluated: `2 -> 5`
yields `[3_up, 4_up, 5_up]` and `5 -> 2` yields `[5_down, 4_down, 3_down]`. -/
theorem sequence_of_complete_set_witness :
    (1 ≤ 5 ∧ 5 < 4294967296 ∧
      (five_versions.map MigrationFile.identity).Perm (complete_identities 5) ∧
      (2 : Nat) ≠ 5 ∧ 1 ≤ 5 ∧ max 2 5 ≤ 5) ∧
    (∃ result,
      sequence_of_file_list five_versions (run_direction 2 5) 2 5 = some result ∧
      result.length = max 2 5 - min 2 5 ∧
      (∀ f ∈ result, f ∈ five_versions) ∧
      (2 < 5 → result.map MigrationFile.identity =
        (List.range' (2 + 1) (5 - 2)).map (fun v => (v, Direction.Up))) ∧
      (5 < 2 → result.map MigrationFile.identity =
        (List.range' (5 + 1) (2 - 5)).reverse.map (fun v => (v, Direction.Down)))) ∧
    sequence_of_file_list five_versions (run_direction 2 5) 2 5 =
      some [⟨"3_up.sql", 3, Direction.Up⟩, ⟨"4_up.sql", 4, Direction.Up⟩,
        ⟨"5_up.sql", 5, Direction.Up⟩] ∧
    sequence_of_file_list five_versions (run_direction 5 2) 5 2 =
      some [⟨"5_down.sql", 5, Direction.Down⟩, ⟨"4_down.sql", 4, Direction.Down⟩,
        ⟨"3_down.sql", 3, Direction.Down⟩] :=
  ⟨⟨by decide, by decide, by decide, by decide, by decide, by decide⟩,
    sequence_of_complete_set five_versions 5 2 5 (by decide) (by decide) (by decide)
      (by decide) (by decide) (by decide),
    by decide, by decide⟩

/-! ## The name parser -/

theorem match_suffix_of_shape (description : Option (List Char))
    (hd : ∀ text, description = some text → text ≠ [] ∧ ∀ c ∈ text, description_char c = true) :
    match_suffix (description_part description ++ ['.', 's', 'q', 'l']) = true := by
  unfold match_suffix
  have hlen : (description_part description ++ ['.', 's', 'q', 'l']).length - 4
      = (description_part description).length := by simp
  rw [hlen, List.drop_left, List.take_left]
  cases description with
  | none => simp [description_part]
  | some text =>
    obtain ⟨hne, hall⟩ := hd text rfl
    simp [description_part]
    exact ⟨hne, hall⟩

theorem underscore_not_digit : is_digit '_' = false := by decide

theorem regex_match_of_shape (name digits : List Char) (d : Direction)
    (description : Option (List Char))
    (h : name_shape description_char name digits d description) :
    regex_match name = some (digits, direction_word d) := by
  obtain ⟨hne, hdig, hdesc, rfl⟩ := h
  have hsuf := match_suffix_of_shape description hdesc
  have hempty : digits.isEmpty = false := by
    cases digits with
    | nil => exact absurd rfl hne
    | cons _ _ => rfl
  unfold regex_match
  simp only [List.takeWhile_append_of_pos hdig, List.dropWhile_append_of_pos hdig]
  rw [List.takeWhile_cons_of_neg (by simp [underscore_not_digit]),
    List.dropWhile_cons_of_neg (by simp [underscore_not_digit])]
  simp only [List.append_nil, hempty, Bool.false_eq_true, if_false]
  cases d with
  | Up => simp [direction_word, hsuf]
  | Down => simp [direction_word, hsuf]

theorem shape_of_match_suffix (rest : List Char) (h : match_suffix rest = true) :
    ∃ description : Option (List Char),
      (∀ text, description = some text → text ≠ [] ∧ ∀ c ∈ text, description_char c = true) ∧
      rest = description_part description ++ ['.', 's', 'q', 'l'] := by
  unfold match_suffix at h
  simp only [Bool.and_eq_true, decide_eq_true_eq, beq_iff_eq] at h
  obtain ⟨⟨_, hdrop⟩, hdesc⟩ := h
  have hsplit := List.take_append_drop (rest.length - 4) rest
  rw [hdrop] at hsplit
  cases htake : rest.take (rest.length - 4) with
  | nil =>
    refine ⟨none, by simp, ?_⟩
    rw [htake] at hsplit
    simpa [description_part] using hsplit.symm
  | cons c text =>
    rw [htake] at hdesc hsplit
    simp at hdesc
    obtain ⟨⟨hc, hne⟩, hall⟩ := hdesc
    refine ⟨some text, ?_, ?_⟩
    · intro t ht
      cases ht
      exact ⟨hne, hall⟩
    · rw [← hsplit, hc]
      rfl

theorem shape_of_regex_match (name digits word : List Char)
    (h : regex_match name = some (digits, word)) :
    ∃ d description, name_shape description_char name digits d description ∧
      word = direction_word d := by
  unfold regex_match at h
  simp only at h
  split at h
  · cases h
  · rename_i hempty
    have hjoin := List.takeWhile_append_dropWhile is_digit name
    have hdig : ∀ c ∈ name.takeWhile is_digit, is_digit c = true :=
      fun c hc => List.mem_takeWhile_imp hc
    have hne : name.takeWhile is_digit ≠ [] := by
      intro hnil
      simp [hnil] at hempty
    split at h
    · rename_i rest hdrop
      split at h
      · rename_i hsuf
        obtain ⟨description, hdesc, hrest⟩ := shape_of_match_suffix rest hsuf
        simp only [Option.some.injEq, Prod.mk.injEq] at h
        obtain ⟨h1, h2⟩ := h
        subst h1
        refine ⟨Direction.Up, description, ⟨hne, hdig, hdesc, ?_⟩, h2.symm⟩
        rw [← hrest]
        simpa [direction_word, hdrop] using hjoin.symm
      · cases h
    · rename_i rest hdrop
      split at h
      · rename_i hsuf
        obtain ⟨description, hdesc, hrest⟩ := shape_of_match_suffix rest hsuf
        simp only [Option.some.injEq, Prod.mk.injEq] at h
        obtain ⟨h1, h2⟩ := h
        subst h1
        refine ⟨Direction.Down, description, ⟨hne, hdig, hdesc, ?_⟩, h2.symm⟩
        rw [← hrest]
        simpa [direction_word, hdrop] using hjoin.symm
      · cases h
    · cases h

/-- C10, as stated, fails in two places.  A description is not free text: the
name `1_up-a<TAB>b.sql` is built as the claim describes, and the parser yields
no descriptor.  And a name built as the claim describes whose number exceeds
`unsigned long` yields `std::out_of_range` instead of a descriptor. -/
theorem free_text_name_without_descriptor :
    (name_shape (fun _ => true) "1_up-a\tb.sql".data ['1'] Direction.Up (some ['a', '\t', 'b']) ∧
      parse_filename "1_up-a\tb.sql" = Except.ok none) ∧
    (name_shape (fun _ => true) "18446744073709551616_up.sql".data
        "18446744073709551616".data Direction.Up none ∧
      parse_filename "18446744073709551616_up.sql" = Except.error Exception.out_of_range) := by
  refine ⟨⟨⟨by decide, by decide, ?_, rfl⟩, rfl⟩, ⟨⟨by decide, by decide, ?_, rfl⟩, rfl⟩⟩
  · intro text h
    cases h
    exact ⟨by decide, by decide⟩
  · intro text h
    cases h

/-- C10, amended: a file name that is not built from one or more decimal
digits, `_`, `up` or `down`, optionally `-` and a non-empty description made of
spaces and characters that are not white space, and `.sql`, gives no descriptor
and no error; a name that is built so and whose number fits 32 bits gives the
descriptor with that number as version and the named direction. -/
theorem parse_filename_descriptor (name : String) :
    ((¬ ∃ digits d description, name_shape description_char name.data digits d description) →
        parse_filename name = Except.ok none) ∧
    (∀ digits d description, name_shape description_char name.data digits d description →
        decimal_value digits < 4294967296 →
        parse_filename name = Except.ok (some ⟨name, decimal_value digits, d⟩)) := by
  constructor
  · intro hno
    cases hm : regex_match name.data with
    | none => simp [parse_filename, hm]
    | some captures =>
      obtain ⟨digits, word⟩ := captures
      obtain ⟨d, description, hshape, _⟩ := shape_of_regex_match name.data digits word hm
      exact absurd ⟨digits, d, description, hshape⟩ hno
  · intro digits d description hshape hfits
    have hm := regex_match_of_shape name.data digits d description hshape
    have hstoul : std_stoul digits = Except.ok (decimal_value digits) := by
      unfold std_stoul ULONG_MAX
      rw [if_neg (by omega)]
    have hu32 : u32 (decimal_value digits) = decimal_value digits := by
      unfold u32
      omega
    simp only [parse_filename, hm, hstoul, hu32]
    cases d <;> simp [direction_word]

/-- Instance of `parse_filename_descriptor` at `10_up-add_column.sql`, with the
other names of the claim evaluated: `7_down-drop_index.sql` gives version 7,
`Down`; `readme.sql` and `1_UP.sql` give no descriptor and no error. -/
theorem parse_filename_descriptor_witness :
    name_shape description_char "10_up-add_column.sql".data ['1', '0'] Direction.Up
        (some "add_column".data) ∧
      decimal_value ['1', '0'] < 4294967296 ∧
      parse_filename "10_up-add_column.sql" =
        Except.ok (some ⟨"10_up-add_column.sql", 10, Direction.Up⟩) ∧
      parse_filename "7_down-drop_index.sql" =
        Except.ok (some ⟨"7_down-drop_index.sql", 7, Direction.Down⟩) ∧
      parse_filename "readme.sql" = Except.ok none ∧
      parse_filename "1_UP.sql" = Except.ok none :=
  have hshape : name_shape description_char "10_up-add_column.sql".data ['1', '0'] Direction.Up
      (some "add_column".data) :=
    ⟨by decide, by decide, fun text h => by cases h; exact ⟨by decide, by decide⟩, rfl⟩
  ⟨hshape, by decide,
    (parse_filename_descriptor "10_up-add_column.sql").2 ['1', '0'] Direction.Up
      (some "add_column".data) hshape (by decide),
    rfl, rfl, rfl⟩

/-- C6: a version number between `2^32` and `2^64 - 1` is not reported.  The
scanner turns `4294967297_up.sql` into a descriptor of version 1: `std::stoul`
accepts the number and the cast to `uint32_t` drops its upper bits. -/
theorem overflowing_version_truncated :
    name_shape description_char "4294967297_up.sql".data "4294967297".data Direction.Up none ∧
      decimal_value "4294967297".data = 4294967297 ∧
      get_migration_file_list [⟨"4294967297_up.sql", true, 18, "CREATE TABLE t(x);"⟩] =
        Except.ok [⟨"4294967297_up.sql", 1, Direction.Up⟩] := by
  refine ⟨⟨by decide, by decide, ?_, rfl⟩, by decide, rfl⟩
  intro text h
  cases h

/-! ## The runner -/

theorem execute_files_ok (db : ConnectionInterface) (entries : List DirEntry)
    (list : List MigrationFile) (k : Nat)
    (h : ∀ r ∈ batch_results db entries k list, r = true) :
    execute_files db entries k list = (list.flatMap (file_calls entries), true) := by
  induction list generalizing k with
  | nil => rfl
  | cons item rest ih =>
    simp only [batch_results, List.mem_cons, forall_eq_or_imp] at h
    simp only [execute_files, h.1, if_true, ih (k + 1) h.2, List.flatMap_cons, file_calls,
      List.cons_append, List.nil_append]

theorem execute_files_fail (db : ConnectionInterface) (entries : List DirEntry)
    (list : List MigrationFile) (k0 k : Nat)
    (hfail : (batch_results db entries k0 list)[k]? = some false)
    (hbefore : ∀ j, j < k → (batch_results db entries k0 list)[j]? = some true) :
    execute_files db entries k0 list = ((list.take (k + 1)).flatMap (file_calls entries), false) := by
  induction list generalizing k0 k with
  | nil => simp [batch_results] at hfail
  | cons item rest ih =>
    cases k with
    | zero =>
      simp only [batch_results, List.getElem?_cons_zero, Option.some.injEq] at hfail
      simp [execute_files, hfail, file_calls]
    | succ k =>
      have h0 := hbefore 0 (by omega)
      simp only [batch_results, List.getElem?_cons_zero, Option.some.injEq] at h0
      simp only [batch_results, List.getElem?_cons_succ] at hfail
      have hrest : ∀ j, j < k → (batch_results db entries (k0 + 1) rest)[j]? = some true := by
        intro j hj
        have := hbefore (j + 1) (by omega)
        simpa only [batch_results, List.getElem?_cons_succ] using this
      simp only [execute_files, h0, if_true, ih (k0 + 1) k hfail hrest, List.take_succ_cons,
        List.flatMap_cons, file_calls, List.cons_append, List.nil_append]

/-- A file of the batch fails: what the runner does, whatever the outcome of
the `ROLLBACK` that the destructor of the handle issues. -/
theorem failing_file_aborts_batch (db : ConnectionInterface) (entries : List DirEntry)
    (target current k : Nat) (b : Bool) (list : List MigrationFile)
    (hopen : db.open_connection = OpenResult.returned b)
    (hver : db.get_user_version = some current)
    (hne : current ≠ target) (ht : target ≠ 0)
    (hseq : get_migration_file_sequence entries (run_direction current target) current target
      = Except.ok (some list))
    (hfail : (batch_results db entries 0 list)[k]? = some false)
    (hbefore : ∀ j, j < k → (batch_results db entries 0 list)[j]? = some true) :
    apply_migration_files db (MigrationPath.directory entries) target =
      (if db.rollback then Outcome.returned false else Outcome.terminated,
        calls_before_batch ++ (list.take (k + 1)).flatMap (file_calls entries) ++
          Call.rollback :: (if db.rollback then [Call.close_connection] else [])) := by
  have ht0 : (target == 0) = false := by simpa using ht
  have hne0 : (current == target) = false := by simpa using hne
  have hloop := execute_files_fail db entries list 0 k hfail hbefore
  simp only [apply_migration_files, ht0, hopen, hver, hne0, hseq, transaction_block, hloop,
    unwind, caught_as_std_exception, DatabaseTransaction.create, DatabaseTransaction.destroy,
    DatabaseTransaction.rollback, DatabaseTransaction.release, calls_before_batch]
  cases db.rollback <;> simp

theorem written_version_unchanged (db : ConnectionInterface) (stored : Nat) (calls : List Call)
    (h : ∀ v, Call.set_user_version v ∉ calls) : written_version db stored calls = stored := by
  induction calls with
  | nil => rfl
  | cons call rest ih =>
    have hrest : ∀ v, Call.set_user_version v ∉ rest := fun v hv => h v (List.mem_cons_of_mem _ hv)
    cases call <;> first
      | exact absurd (List.mem_cons_self _ _) (h _)
      | simpa [written_version] using ih hrest

/-- A file of the batch fails: no later file is executed, the version is not
written, nothing is committed, and the handle rolls back once. -/
theorem failing_file_leaves_version (db : ConnectionInterface) (entries : List DirEntry)
    (target current k : Nat) (b : Bool) (list : List MigrationFile)
    (hopen : db.open_connection = OpenResult.returned b)
    (hver : db.get_user_version = some current)
    (hne : current ≠ target) (ht : target ≠ 0)
    (hseq : get_migration_file_sequence entries (run_direction current target) current target
      = Except.ok (some list))
    (hfail : (batch_results db entries 0 list)[k]? = some false)
    (hbefore : ∀ j, j < k → (batch_results db entries 0 list)[j]? = some true) :
    (∀ v, Call.set_user_version v ∉ (apply_migration_files db (MigrationPath.directory entries) target).2) ∧
      Call.commit ∉ (apply_migration_files db (MigrationPath.directory entries) target).2 ∧
      (apply_migration_files db (MigrationPath.directory entries) target).2.count Call.rollback = 1 ∧
      (apply_migration_files db (MigrationPath.directory entries) target).2.filterMap
          (fun call => match call with
            | Call.execute_statement sql => some sql
            | _ => none)
        = (list.take (k + 1)).map (fun item => read_file entries item.path) ∧
      written_version db current (apply_migration_files db (MigrationPath.directory entries) target).2 = current := by
  have hrun := failing_file_aborts_batch db entries target current k b list hopen hver hne ht
    hseq hfail hbefore
  have hfiles : ∀ l : List MigrationFile, ∀ c ∈ l.flatMap (file_calls entries),
      (∃ path, c = Call.read_file path) ∨ ∃ sql, c = Call.execute_statement sql := by
    intro l c hc
    obtain ⟨item, _, hitem⟩ := List.mem_flatMap.mp hc
    simp only [file_calls, List.mem_cons, List.mem_singleton, List.not_mem_nil, or_false] at hitem
    rcases hitem with h | h
    · exact Or.inl ⟨_, h⟩
    · exact Or.inr ⟨_, h⟩
  have hcount : ∀ l : List MigrationFile,
      (l.flatMap (file_calls entries)).count Call.rollback = 0 := by
    intro l
    rw [List.count_eq_zero]
    intro hmem
    rcases hfiles l _ hmem with ⟨_, h⟩ | ⟨_, h⟩ <;> cases h
  have hsql : ∀ l : List MigrationFile,
      (l.flatMap (file_calls entries)).filterMap
          (fun call => match call with
            | Call.execute_statement sql => some sql
            | _ => none)
        = l.map (fun item => read_file entries item.path) := by
    intro l
    induction l with
    | nil => rfl
    | cons item rest ih =>
      rw [List.flatMap_cons, List.filterMap_append, ih]
      rfl
  have hset : ∀ v, Call.set_user_version v ∉ (apply_migration_files db (MigrationPath.directory entries) target).2 := by
    intro v hv
    rw [hrun] at hv
    simp only [calls_before_batch, List.mem_append, List.mem_cons] at hv
    rcases hv with (hv | hv) | hv | hv
    · simp at hv
    · rcases hfiles _ _ hv with ⟨_, h⟩ | ⟨_, h⟩ <;> cases h
    · cases hv
    · cases db.rollback <;> simp at hv
  refine ⟨hset, ?_, ?_, ?_, written_version_unchanged db current _ hset⟩
  · intro hv
    rw [hrun] at hv
    simp only [calls_before_batch, List.mem_append, List.mem_cons] at hv
    rcases hv with (hv | hv) | hv | hv
    · simp at hv
    · rcases hfiles _ _ hv with ⟨_, h⟩ | ⟨_, h⟩ <;> cases h
    · cases hv
    · cases db.rollback <;> simp at hv
  · rw [hrun]
    simp only [List.count_append, hcount, calls_before_batch]
    cases db.rollback <;> decide
  · rw [hrun]
    simp only [List.filterMap_append, hsql, calls_before_batch]
    cases db.rollback <;> simp

/-- C3: the run does not return when the `ROLLBACK` of the discarded handle
fails as well.  The second of two files fails; the destructor of the handle
calls `rollback()`, which throws while the stack is unwound, so the process is
terminated: no value is returned and `close_connection` is not called. -/
theorem failing_file_and_rollback_terminates :
    (batch_results (scripted 0 true (some 1) true false) two_versions 0
        [⟨"1_up.sql", 1, Direction.Up⟩, ⟨"2_up-add_b.sql", 2, Direction.Up⟩])[1]? = some false ∧
      apply_migration_files (scripted 0 true (some 1) true false) (MigrationPath.directory two_versions) 2 =
        (Outcome.terminated,
          [Call.is_directory, Call.open_connection, Call.get_user_version,
            Call.directory_iterator, Call.begin_transaction, Call.read_file "1_up.sql",
            Call.execute_statement "CREATE TABLE a(x);", Call.read_file "2_up-add_b.sql",
            Call.execute_statement "CREATE TABLE b(y);", Call.rollback]) := by
  decide

/-- C4, as stated, fails: every file executes successfully, yet
`set_user_version` throws, the handle rolls back and `commit` is never
called. -/
theorem version_write_failure_skips_commit :
    get_migration_file_sequence two_versions (run_direction 0 2) 0 2 =
        Except.ok (some [⟨"1_up.sql", 1, Direction.Up⟩, ⟨"2_up-add_b.sql", 2, Direction.Up⟩]) ∧
      (∀ r ∈ batch_results (scripted 0 true none false true) two_versions 0
        [⟨"1_up.sql", 1, Direction.Up⟩, ⟨"2_up-add_b.sql", 2, Direction.Up⟩], r = true) ∧
      apply_migration_files (scripted 0 true none false true) (MigrationPath.directory two_versions) 2 =
        (Outcome.returned false,
          [Call.is_directory, Call.open_connection, Call.get_user_version,
            Call.directory_iterator, Call.begin_transaction, Call.read_file "1_up.sql",
            Call.execute_statement "CREATE TABLE a(x);", Call.read_file "2_up-add_b.sql",
            Call.execute_statement "CREATE TABLE b(y);", Call.set_user_version 2, Call.rollback,
            Call.close_connection]) :=
  ⟨rfl, by decide, by decide⟩

/-- C4, amended: in a run with `current != target` in which the file set
validates, every file executes successfully and `set_user_version` does not
throw, the calls are, in this order: `begin_transaction`, for each sequenced
file in sequence order the read of the file and `execute_statement` with its
content, `set_user_version(target_schema_version)`, `commit`, and
`close_connection`; the run returns true when the commit succeeds and false
when it fails. -/
theorem successful_batch_calls (db : ConnectionInterface) (entries : List DirEntry)
    (target current : Nat) (b : Bool) (list : List MigrationFile)
    (hopen : db.open_connection = OpenResult.returned b)
    (hver : db.get_user_version = some current)
    (hne : current ≠ target) (ht : target ≠ 0)
    (hseq : get_migration_file_sequence entries (run_direction current target) current target
      = Except.ok (some list))
    (hfiles : ∀ r ∈ batch_results db entries 0 list, r = true)
    (hset : db.set_user_version target = true) :
    apply_migration_files db (MigrationPath.directory entries) target =
      (Outcome.returned db.commit,
        calls_before_batch ++ list.flatMap (file_calls entries) ++
          [Call.set_user_version target, Call.commit, Call.close_connection]) := by
  have ht0 : (target == 0) = false := by simpa using ht
  have hne0 : (current == target) = false := by simpa using hne
  have hloop := execute_files_ok db entries list 0 hfiles
  simp only [apply_migration_files, ht0, hopen, hver, hne0, hseq, transaction_block, hloop,
    hset, unwind, caught_as_std_exception, DatabaseTransaction.create,
    DatabaseTransaction.destroy, DatabaseTransaction.commit, DatabaseTransaction.release,
    calls_before_batch]
  cases db.commit <;> simp

/-- Instance of `successful_batch_calls`: the upgrade from version 0 to version
2 on a collaborator on which every call succeeds. -/
theorem successful_batch_calls_witness :
    (healthy 0).open_connection = OpenResult.returned true ∧
      (healthy 0).get_user_version = some 0 ∧ (0 : Nat) ≠ 2 ∧ (2 : Nat) ≠ 0 ∧
      get_migration_file_sequence two_versions (run_direction 0 2) 0 2 =
        Except.ok (some [⟨"1_up.sql", 1, Direction.Up⟩, ⟨"2_up-add_b.sql", 2, Direction.Up⟩]) ∧
      (∀ r ∈ batch_results (healthy 0) two_versions 0
        [⟨"1_up.sql", 1, Direction.Up⟩, ⟨"2_up-add_b.sql", 2, Direction.Up⟩], r = true) ∧
      (healthy 0).set_user_version 2 = true ∧
      apply_migration_files (healthy 0) (MigrationPath.directory two_versions) 2 =
        (Outcome.returned (healthy 0).commit,
          calls_before_batch ++
            [⟨"1_up.sql", 1, Direction.Up⟩, ⟨"2_up-add_b.sql", 2, Direction.Up⟩].flatMap
              (file_calls two_versions) ++
            [Call.set_user_version 2, Call.commit, Call.close_connection]) :=
  ⟨rfl, rfl, by decide, by decide, rfl, by decide, rfl,
    successful_batch_calls (healthy 0) two_versions 2 0 true _ rfl rfl (by decide) (by decide)
      rfl (by decide) rfl⟩

/-- C7: the flag returned by `open_connection` is not looked at.  With a
collaborator whose `open_connection` returns false and whose
`get_user_version` then answers 0, the run begins a transaction, executes the
file, writes the version and returns true. -/
theorem failed_open_is_ignored :
    (scripted 0 false none true true).open_connection = OpenResult.returned false ∧
      apply_migration_files (scripted 0 false none true true)
          (MigrationPath.directory [sql_file "1_up.sql" "CREATE TABLE a(x);"]) 1 =
        (Outcome.returned true,
          [Call.is_directory, Call.open_connection, Call.get_user_version,
            Call.directory_iterator, Call.begin_transaction, Call.read_file "1_up.sql",
            Call.execute_statement "CREATE TABLE a(x);", Call.set_user_version 1, Call.commit,
            Call.close_connection]) := by
  decide

/-- Opening or reading the version fails by an exception: the run returns
false and makes no call after the failing one. -/
theorem thrown_open_or_read_returns_false (db : ConnectionInterface) (entries : List DirEntry)
    (target : Nat) (ht : target ≠ 0)
    (h : db.open_connection = OpenResult.threw ∨
      (∃ b, db.open_connection = OpenResult.returned b) ∧ db.get_user_version = none) :
    (apply_migration_files db (MigrationPath.directory entries) target).1 = Outcome.returned false ∧
      ∀ c ∈ (apply_migration_files db (MigrationPath.directory entries) target).2,
        c = Call.is_directory ∨ c = Call.open_connection ∨ c = Call.get_user_version := by
  have ht0 : (target == 0) = false := by simpa using ht
  rcases h with h | ⟨⟨b, h1⟩, h2⟩
  · simp [apply_migration_files, ht0, h]
  · simp [apply_migration_files, ht0, h1, h2]

/-- C8: `close_connection` is not called when reading the current version
fails.  The run calls `open_connection`, `get_user_version` throws, and the
handler returns false at once. -/
theorem version_read_failure_skips_close :
    apply_migration_files unreadable_version (MigrationPath.directory two_versions) 2 =
        (Outcome.returned false,
          [Call.is_directory, Call.open_connection, Call.get_user_version]) ∧
      Call.open_connection ∈ (apply_migration_files unreadable_version (MigrationPath.directory two_versions) 2).2 ∧
      (apply_migration_files unreadable_version (MigrationPath.directory two_versions) 2).2.count
        Call.close_connection = 0 := by
  decide

theorem execute_files_close (db : ConnectionInterface) (flag : Bool) (entries : List DirEntry)
    (k : Nat) (list : List MigrationFile) :
    execute_files (with_close_result db flag) entries k list = execute_files db entries k list := by
  induction list generalizing k with
  | nil => rfl
  | cons item rest ih =>
    simp only [execute_files, ih]
    rfl

/-- The flag returned by `close_connection` changes neither the result of a run
nor its calls. -/
theorem close_result_is_not_used (db : ConnectionInterface) (flag : Bool)
    (directory : MigrationPath) (target : Nat) :
    apply_migration_files (with_close_result db flag) directory target =
      apply_migration_files db directory target := by
  simp only [apply_migration_files, transaction_block, execute_files_close]
  rfl

/-! ## Runs that apply nothing -/

/-- C11: for every directory and every `target_version != 0`, when the version
read from the connection equals the target the run returns true after exactly
these calls: the directory test, `open_connection`, `get_user_version` and one
`close_connection`.  The directory is not scanned, no file is read, there is no
`begin_transaction`, `execute_statement` or `set_user_version`, and the stored
version is unchanged. -/
theorem matching_version_is_no_op (db : ConnectionInterface) (entries : List DirEntry)
    (target : Nat) (b : Bool) (ht : target ≠ 0)
    (hopen : db.open_connection = OpenResult.returned b)
    (hver : db.get_user_version = some target) :
    apply_migration_files db (MigrationPath.directory entries) target =
        (Outcome.returned true,
          [Call.is_directory, Call.open_connection, Call.get_user_version,
            Call.close_connection]) ∧
      Call.directory_iterator ∉ (apply_migration_files db (MigrationPath.directory entries) target).2 ∧
      (∀ path, Call.read_file path ∉ (apply_migration_files db (MigrationPath.directory entries) target).2) ∧
      Call.begin_transaction ∉ (apply_migration_files db (MigrationPath.directory entries) target).2 ∧
      (∀ sql, Call.execute_statement sql ∉ (apply_migration_files db (MigrationPath.directory entries) target).2) ∧
      (∀ v, Call.set_user_version v ∉ (apply_migration_files db (MigrationPath.directory entries) target).2) ∧
      (apply_migration_files db (MigrationPath.directory entries) target).2.count Call.close_connection = 1 ∧
      written_version db target (apply_migration_files db (MigrationPath.directory entries) target).2 = target := by
  have ht0 : (target == 0) = false := by simpa using ht
  have hrun : apply_migration_files db (MigrationPath.directory entries) target =
      (Outcome.returned true,
        [Call.is_directory, Call.open_connection, Call.get_user_version,
          Call.close_connection]) := by
    simp [apply_migration_files, ht0, hopen, hver]
  rw [hrun]
  refine ⟨rfl, by decide, fun path => by simp, by decide, fun sql => by simp,
    fun v => by simp, by decide, rfl⟩

/-- Instance of `matching_version_is_no_op`: the two-version directory with the
database already at version 2. -/
theorem matching_version_is_no_op_witness :
    ((2 : Nat) ≠ 0 ∧ (healthy 2).open_connection = OpenResult.returned true ∧
      (healthy 2).get_user_version = some 2) ∧
    (apply_migration_files (healthy 2) (MigrationPath.directory two_versions) 2 =
        (Outcome.returned true,
          [Call.is_directory, Call.open_connection, Call.get_user_version,
            Call.close_connection]) ∧
      Call.directory_iterator ∉ (apply_migration_files (healthy 2) (MigrationPath.directory two_versions) 2).2 ∧
      (∀ path, Call.read_file path ∉ (apply_migration_files (healthy 2) (MigrationPath.directory two_versions) 2).2) ∧
      Call.begin_transaction ∉ (apply_migration_files (healthy 2) (MigrationPath.directory two_versions) 2).2 ∧
      (∀ sql,
        Call.execute_statement sql ∉ (apply_migration_files (healthy 2) (MigrationPath.directory two_versions) 2).2) ∧
      (∀ v,
        Call.set_user_version v ∉ (apply_migration_files (healthy 2) (MigrationPath.directory two_versions) 2).2) ∧
      (apply_migration_files (healthy 2) (MigrationPath.directory two_versions) 2).2.count Call.close_connection
        = 1 ∧
      written_version (healthy 2) 2 (apply_migration_files (healthy 2) (MigrationPath.directory two_versions) 2).2
        = 2) :=
  ⟨⟨by decide, rfl, rfl⟩,
    matching_version_is_no_op (healthy 2) two_versions 2 true (by decide) rfl rfl⟩

theorem release_drops_lock (t : DatabaseTransaction) (retval : Bool) :
    (t.release retval).1.owns_lock = false := by
  unfold DatabaseTransaction.release
  split <;> rfl

theorem after_calls_stays_released (calls : List (TransactionCall × Bool)) :
    ∀ t : DatabaseTransaction, t.owns_lock = false → (t.after_calls calls).owns_lock = false := by
  induction calls with
  | nil => exact fun t h => h
  | cons call rest ih =>
    intro t _
    obtain ⟨member, retval⟩ := call
    exact ih _ (release_drops_lock t retval)

theorem after_calls_released (t : DatabaseTransaction) (calls : List (TransactionCall × Bool))
    (h : calls ≠ []) : (t.after_calls calls).owns_lock = false := by
  cases calls with
  | nil => exact absurd rfl h
  | cons call rest =>
    obtain ⟨member, retval⟩ := call
    exact after_calls_stays_released rest _ (release_drops_lock t retval)

/-- C13: discarding a `DatabaseTransaction` issues `ROLLBACK TRANSACTION`
exactly when the handle still owns its lock, and a handle obtained from
`begin_transaction` still owns it exactly when neither `commit()` nor
`rollback()` has been called on it.  Discarded with the lock, the handle makes
the single call `rollback` and no `commit`; after any call of `commit()` or
`rollback()`, whatever its statement returned, the lock is released and the
destructor issues nothing. -/
theorem discarded_handle_rolls_back (db : ConnectionInterface) (t : DatabaseTransaction)
    (calls : List (TransactionCall × Bool)) :
    ((t.destroy db).1.filterMap transaction_statement =
        if t.owns_lock then ["ROLLBACK TRANSACTION"] else []) ∧
      ((DatabaseTransaction.create.after_calls calls).owns_lock = true ↔ calls = []) ∧
      (((DatabaseTransaction.create.after_calls calls).destroy db).1 = [Call.rollback] ↔
        calls = []) ∧
      (calls ≠ [] → (DatabaseTransaction.create.after_calls calls).owns_lock = false ∧
        ((DatabaseTransaction.create.after_calls calls).destroy db).1 = []) ∧
      ((t.commit db).1.owns_lock = false ∧ ((t.commit db).1.destroy db).1 = []) ∧
      ((t.rollback db).1.owns_lock = false ∧ ((t.rollback db).1.destroy db).1 = []) := by
  have hdestroy : ∀ u : DatabaseTransaction, u.owns_lock = false → (u.destroy db).1 = [] := by
    intro u hu
    simp [DatabaseTransaction.destroy, hu]
  have hafter : calls ≠ [] → (DatabaseTransaction.create.after_calls calls).owns_lock = false :=
    after_calls_released _ calls
  refine ⟨?_, ?_, ?_, fun h => ⟨hafter h, hdestroy _ (hafter h)⟩,
    ⟨release_drops_lock t _, hdestroy _ (release_drops_lock t _)⟩,
    ⟨release_drops_lock t _, hdestroy _ (release_drops_lock t _)⟩⟩
  · cases h : t.owns_lock <;> simp [DatabaseTransaction.destroy, h, transaction_statement]
  · constructor
    · intro h
      by_contra hne
      rw [hafter hne] at h
      cases h
    · rintro rfl
      rfl
  · constructor
    · intro h
      by_contra hne
      rw [hdestroy _ (hafter hne)] at h
      cases h
    · rintro rfl
      rfl

/-- Instance of `discarded_handle_rolls_back`: a handle whose `commit()` failed,
and the handle that goes on to be discarded. -/
theorem discarded_handle_rolls_back_witness :
    [(TransactionCall.commit, false)] ≠ [] ∧
      (DatabaseTransaction.create.after_calls [(TransactionCall.commit, false)]).owns_lock
        = false ∧
      ((DatabaseTransaction.create.after_calls [(TransactionCall.commit, false)]).destroy
        (healthy 0)).1 = [] ∧
      ((DatabaseTransaction.create.after_calls []).destroy (healthy 0)).1 = [Call.rollback] :=
  have h := discarded_handle_rolls_back (healthy 0) DatabaseTransaction.create
    [(TransactionCall.commit, false)]
  ⟨by decide, (h.2.2.2.1 (by decide)).1, (h.2.2.2.1 (by decide)).2,
    ((discarded_handle_rolls_back (healthy 0) DatabaseTransaction.create []).2.2.1).mpr rfl⟩

/-! ## The binders of `Statement` by name -/

/-- C14: each binder of `Statement` that takes a parameter name throws
`std::out_of_range` and leaves the statement without a bind when the name
resolves to an index `<= 0`; otherwise it returns the code, and leaves the
statement, of the binder by index called with the resolved index and the same
value. -/
theorem bind_by_name (stmt : Statement) (param : String) (text : String)
    (lifetime : SQLiteString) (number : Int) (bits : Nat) :
    (stmt.sqlite3_bind_parameter_index (c_str param) ≤ 0 →
      stmt.bind_text_by_name param text lifetime = (Except.error Exception.out_of_range, stmt) ∧
      stmt.bind_int_by_name param number = (Except.error Exception.out_of_range, stmt) ∧
      stmt.bind_int64_by_name param number = (Except.error Exception.out_of_range, stmt) ∧
      stmt.bind_double_by_name param bits = (Except.error Exception.out_of_range, stmt) ∧
      stmt.bind_null_by_name param = (Except.error Exception.out_of_range, stmt)) ∧
    (0 < stmt.sqlite3_bind_parameter_index (c_str param) →
      stmt.bind_text_by_name param text lifetime =
        (Except.ok
          (stmt.bind_text (stmt.sqlite3_bind_parameter_index (c_str param)) text lifetime).1,
          (stmt.bind_text (stmt.sqlite3_bind_parameter_index (c_str param)) text lifetime).2) ∧
      stmt.bind_int_by_name param number =
        (Except.ok (stmt.bind_int (stmt.sqlite3_bind_parameter_index (c_str param)) number).1,
          (stmt.bind_int (stmt.sqlite3_bind_parameter_index (c_str param)) number).2) ∧
      stmt.bind_int64_by_name param number =
        (Except.ok (stmt.bind_int64 (stmt.sqlite3_bind_parameter_index (c_str param)) number).1,
          (stmt.bind_int64 (stmt.sqlite3_bind_parameter_index (c_str param)) number).2) ∧
      stmt.bind_double_by_name param bits =
        (Except.ok (stmt.bind_double (stmt.sqlite3_bind_parameter_index (c_str param)) bits).1,
          (stmt.bind_double (stmt.sqlite3_bind_parameter_index (c_str param)) bits).2) ∧
      stmt.bind_null_by_name param =
        (Except.ok (stmt.bind_null (stmt.sqlite3_bind_parameter_index (c_str param))).1,
          (stmt.bind_null (stmt.sqlite3_bind_parameter_index (c_str param))).2)) := by
  constructor
  · intro h
    simp only [Statement.bind_text_by_name, Statement.bind_int_by_name,
      Statement.bind_int64_by_name, Statement.bind_double_by_name, Statement.bind_null_by_name,
      if_pos h, and_self]
  · intro h
    have hn : ¬ stmt.sqlite3_bind_parameter_index (c_str param) ≤ 0 := not_le.mpr h
    simp only [Statement.bind_text_by_name, Statement.bind_int_by_name,
      Statement.bind_int64_by_name, Statement.bind_double_by_name, Statement.bind_null_by_name,
      if_neg hn, and_self]

/-- Instance of `bind_by_name` on the statement of the test
`InvalidParameterThrows`: `bind_int(":invalid", 1)` throws `std::out_of_range`
and binds nothing, and `bind_int(":name", 1)` is `bind_int(1, 1)`. -/
theorem bind_by_name_witness :
    select_by_name.sqlite3_bind_parameter_index (c_str ":invalid") ≤ 0 ∧
      select_by_name.bind_int_by_name ":invalid" 1 =
        (Except.error Exception.out_of_range, select_by_name) ∧
      0 < select_by_name.sqlite3_bind_parameter_index (c_str ":name") ∧
      select_by_name.bind_int_by_name ":name" 1 =
        (Except.ok (select_by_name.bind_int 1 1).1, (select_by_name.bind_int 1 1).2) :=
  ⟨by decide,
    ((bind_by_name select_by_name ":invalid" "" SQLiteString.Static 1 0).1 (by decide)).2.1,
    by decide,
    ((bind_by_name select_by_name ":name" "" SQLiteString.Static 1 0).2 (by decide)).2.1⟩

end everest.db.sqlite
